import Mathlib

/-!
Verification of the initialization and runtime-control logic of the VPIC
LPI input deck `src/examples/acceptance/test_src/vpic/lpi-input.tmpl.cxx`.

The deck's real-valued quantities (C `double`) are embedded as rationals `ℚ`
so that every definition is executable; integer quantities become `ℕ`.
Template placeholders (`{{vpic_input.*}}`) and values computed earlier in the
deck become explicit parameters of the embedded functions.
-/

namespace LpiDeck

/-! ## Time-step snapping (lines 181-183)

`dt = cfl_req*courant_length(Lx,Ly,Lz,nx,ny,nz)` produces an initial time
step `dt0`; the laser period is `T = 2*pi/omega`.  The deck then computes
`nsteps_cycle = trunc_granular(2*pi/(dt*omega), 1) + 1` and resets
`dt = 2*pi/omega/nsteps_cycle`.  Since `courant_length` and `omega` only
enter through the two positive reals `dt0` and `T`, the snapping logic is
embedded as a function of those two quantities; `2*pi/(dt*omega) = T/dt0`. -/

/-- C truncation toward zero, `int(x)` applied to a nonnegative or negative
rational, used by VPIC's `trunc_granular`. -/
def cTrunc (x : ℚ) : ℤ :=
  if 0 ≤ x then ⌊x⌋ else -⌊-x⌋

/-- Modelled from the spec: VPIC's `trunc_granular(a, b)` (not under `src/`;
only its caller at line 182 is), which truncates `a` to the granularity `b`:
`b * int(a/b)`; the spec calls this rounding to the nearest configured
granularity before the `+1`. -/
def trunc_granular (a b : ℚ) : ℚ :=
  b * (cTrunc (a / b) : ℚ)

/-- Line 182: `nsteps_cycle = trunc_granular(2*pi/(dt*omega),1)+1`, with
`T = 2*pi/omega` the laser period and `dt0` the pre-snap CFL time step. -/
def nsteps_cycle (T dt0 : ℚ) : ℚ :=
  trunc_granular (T / dt0) 1 + 1

/-- Line 183: `dt = 2*pi/omega/nsteps_cycle`, the snapped time step. -/
def dt_snapped (T dt0 : ℚ) : ℚ :=
  T / nsteps_cycle T dt0

/-! ## Rank-to-coordinate decoding (lines 308-318)

The `RANK_TO_INDEX` macro decodes a linear MPI rank into the (ix, iy, iz)
domain coordinates using integer division by the topology extents.  C
integer division on the nonnegative operands involved coincides with `ℕ`
division. -/

/-- Lines 308-318: the `RANK_TO_INDEX(rank, ix, iy, iz)` macro.
`_ix = rank; _iy = _ix/tx; _ix -= _iy*tx; _iz = _iy/ty; _iy -= _iz*ty`. -/
def rank_to_index (tx ty : ℕ) (rank : ℕ) : ℕ × ℕ × ℕ :=
  let ix0 := rank
  let iy0 := ix0 / tx
  let ix1 := ix0 - iy0 * tx
  let iz0 := iy0 / ty
  let iy1 := iy0 - iz0 * ty
  (ix1, iy1, iz0)

/-- Re-encoding of domain coordinates into a linear rank, the inverse stated
in the comment of line 310: `ix = ix + gpx*( iy + gpy*iz )`. -/
def index_to_rank (tx ty : ℕ) (ix iy iz : ℕ) : ℕ :=
  ix + tx * (iy + ty * iz)

/-! ## Macro-particle charges (lines 94-101, 191-197)

`N_e = nppc*nx*ny*nz`, `Np_e = Lx*Ly*Lz`, `q_e = -Np_e/N_e`, `N_i = N_e`,
`Np_i = Np_e/(Z_H*f_H+Z_He*f_He)`, `qi_H = Z_H*f_H*Np_i/N_i`,
`qi_He = Z_He*f_He*Np_i/N_i`, with the deck's ionization states
`Z_H = 1` and `Z_He = 3`. -/

/-- Line 95: ionization state of the H species. -/
def Z_H : ℚ := 1

/-- Line 101: ionization state of the He (N3+) species. -/
def Z_He : ℚ := 3

/-- Line 191: `N_e = nppc*nx*ny*nz`, number of macro electrons in the box. -/
def N_e (nppc nx ny nz : ℚ) : ℚ := nppc * nx * ny * nz

/-- Line 192: `Np_e = Lx*Ly*Lz`, number of physical electrons in the box in
natural units. -/
def Np_e (Lx Ly Lz : ℚ) : ℚ := Lx * Ly * Lz

/-- Line 193: `q_e = -Np_e/N_e`, charge per macro electron. -/
def q_e (nppc nx ny nz Lx Ly Lz : ℚ) : ℚ :=
  -Np_e Lx Ly Lz / N_e nppc nx ny nz

/-- Line 194: `N_i = N_e`, number of macro ions of each species in the box. -/
def N_i (nppc nx ny nz : ℚ) : ℚ := N_e nppc nx ny nz

/-- Line 195: `Np_i = Np_e/(Z_H*f_H+Z_He*f_He)`, number of physical ions of
each species in the box. -/
def Np_i (Lx Ly Lz f_H f_He : ℚ) : ℚ :=
  Np_e Lx Ly Lz / (Z_H * f_H + Z_He * f_He)

/-- Line 196: `qi_H = Z_H*f_H*Np_i/N_i`, charge per H macro ion. -/
def qi_H (nppc nx ny nz Lx Ly Lz f_H f_He : ℚ) : ℚ :=
  Z_H * f_H * Np_i Lx Ly Lz f_H f_He / N_i nppc nx ny nz

/-- Line 197: `qi_He = Z_He*f_He*Np_i/N_i`, charge per He macro ion. -/
def qi_He (nppc nx ny nz Lx Ly Lz f_H f_He : ℚ) : ℚ :=
  Z_He * f_He * Np_i Lx Ly Lz f_H f_He / N_i nppc nx ny nz

/-! ## Box-size / resolution scaling (lines 116-157)

Per-node box sizes (lines 116-118) are multiplied by the single-node
memory-footprint scale `ssize` (lines 121-123) and then by the multi-node
replication scale `snodes` (lines 126-128); the per-node resolutions
(lines 131-133) are scaled by the same two factors in the same order
(lines 136-143).  Cell spacing is `h_i = box_size_i/(delta*n_i)`
(lines 155-157). -/

/-- Lines 116, 121, 126: `box_size_x = nx_sn*(0.06*120.0*1e-4/6.0)/96`,
then `*= ssize_x`, then `*= snodes_x`. -/
def box_size_x (nx_sn ssx snx : ℚ) : ℚ :=
  nx_sn * ((6/100) * 120 * (1/10000) / 6) / 96 * ssx * snx

/-- Lines 117, 122, 127: `box_size_y = ny_sn*(0.06*120.0*1e-4/24.0)/24`,
then `*= ssize_y`, then `*= snodes_y`. -/
def box_size_y (ny_sn ssy sny : ℚ) : ℚ :=
  ny_sn * ((6/100) * 120 * (1/10000) / 24) / 24 * ssy * sny

/-- Lines 118, 123, 128: `box_size_z = nz_sn*(0.06*120.0*1e-4/24.0)/24`,
then `*= ssize_z`, then `*= snodes_z`. -/
def box_size_z (nz_sn ssz snz : ℚ) : ℚ :=
  nz_sn * ((6/100) * 120 * (1/10000) / 24) / 24 * ssz * snz

/-- Lines 131, 136, 141: `nx = nx_sn`, then `*= ssize_x`,
then `*= snodes_x`. -/
def grid_nx (nx_sn ssx snx : ℚ) : ℚ := nx_sn * ssx * snx

/-- Line 155: `hx = box_size_x/(delta*nx)`. -/
def hx_of (nx_sn ssx snx delta : ℚ) : ℚ :=
  box_size_x nx_sn ssx snx / (delta * grid_nx nx_sn ssx snx)

/-- Line 156: `hy = box_size_y/(delta*ny)`. -/
def hy_of (ny_sn ssy sny delta : ℚ) : ℚ :=
  box_size_y ny_sn ssy sny / (delta * grid_nx ny_sn ssy sny)

/-- Line 157: `hz = box_size_z/(delta*nz)`. -/
def hz_of (nz_sn ssz snz delta : ℚ) : ℚ :=
  box_size_z nz_sn ssz snz / (delta * grid_nx nz_sn ssz snz)

/-! ## Boundary-face overrides (lines 302-355)

When `use_maxwellian_reflux_bc == 1`, the rank's decoded coordinates select
which of its six faces get `set_domain_field_bc(..., absorb_fields)`:
`ix == 0` the left face, `ix == topology_x - 1` the right, `iy == 0` the
front, `iy == topology_y - 1` the back, `iz == 0` the top and
`iz == topology_z - 1` the bottom. -/

/-- Record of which of the six domain faces have been overridden to
`absorb_fields`; `false` means the face keeps the periodic default. -/
structure FaceBC where
  left : Bool
  right : Bool
  front : Bool
  back : Bool
  top : Bool
  bottom : Bool
deriving DecidableEq

/-- Lines 302-355: the boundary-override block.  With the flag `== 1` the
rank is decoded by `RANK_TO_INDEX` and each face on the global edge is set
absorbing; with any other flag value no face is touched. -/
def domain_face_overrides (flag : ℤ) (tx ty tz rank : ℕ) : FaceBC :=
  if flag = 1 then
    let ix := (rank_to_index tx ty rank).1
    let iy := (rank_to_index tx ty rank).2.1
    let iz := (rank_to_index tx ty rank).2.2
    { left   := decide (ix = 0),  right  := decide (ix = tx - 1),
      front  := decide (iy = 0),  back   := decide (iy = ty - 1),
      top    := decide (iz = 0),  bottom := decide (iz = tz - 1) }
  else
    { left := false, right := false, front := false,
      back := false, top := false, bottom := false }

/-! ## Particle loading (lines 459-464 and 474-542)

Each trial of the `repeat( N_e/(topology_x*topology_y*topology_z) )` loop
draws a position; when `use_maxwellian_reflux_bc == 1` and the position
falls in `iv_region` the trial is skipped (`continue`), otherwise one
electron is injected, plus one H macro-ion if `mobile_ions && H_present`
and one He macro-ion if `mobile_ions && He_present`, all at the same
position. -/

/-- Species injected by the loader. -/
inductive PSpecies
  | electron
  | ionH
  | ionHe
deriving DecidableEq

/-- Deck flags controlling the loader: the boundary-override flag (an `int`
compared against `1` at lines 302-304 and 490) and the species flags of
lines 80-89. -/
structure DeckConfig where
  use_maxwellian_reflux_bc : ℤ
  mobile_ions : Bool
  H_present : Bool
  He_present : Bool

/-- Geometry entering the `iv_region` macro: cell sizes `hx, hy, hz`, box
extents `Lx, Ly, Lz` and the vacuum thickness `iv_thick` (line 66). -/
structure BoxGeom where
  hx : ℚ
  hy : ℚ
  hz : ℚ
  Lx : ℚ
  Ly : ℚ
  Lz : ℚ
  iv_thick : ℚ

/-- Lines 459-464: the `iv_region` macro,
`x < hx*iv_thick || x > Lx - hx*iv_thick || y < -Ly/2 + hy*iv_thick ||
y > Ly/2 - hy*iv_thick || z < -Lz/2 + hz*iv_thick || z > Lz/2 - hz*iv_thick`. -/
def iv_region (g : BoxGeom) (x y z : ℚ) : Bool :=
  decide (x < g.hx * g.iv_thick) ||
  decide (x > g.Lx - g.hx * g.iv_thick) ||
  decide (y < -g.Ly / 2 + g.hy * g.iv_thick) ||
  decide (y > g.Ly / 2 - g.hy * g.iv_thick) ||
  decide (z < -g.Lz / 2 + g.hz * g.iv_thick) ||
  decide (z > g.Lz / 2 - g.hz * g.iv_thick)

/-- Lines 484-541: one trial of the loading loop, recorded as the list of
species injected at the drawn position `(x, y, z)`. -/
def trialInject (c : DeckConfig) (g : BoxGeom) (x y z : ℚ) : List PSpecies :=
  if c.use_maxwellian_reflux_bc = 1 ∧ iv_region g x y z = true then []
  else
    PSpecies.electron ::
      (if c.mobile_ions then
        (if c.H_present then [PSpecies.ionH] else []) ++
        (if c.He_present then [PSpecies.ionHe] else [])
      else [])

/-- Lines 484-541: the whole loading loop over a list of drawn positions
(one entry per `repeat` iteration), concatenating the injections of every
trial. -/
def load_particles_loop (c : DeckConfig) (g : BoxGeom) :
    List (ℚ × ℚ × ℚ) → List PSpecies
  | [] => []
  | p :: ps => trialInject c g p.1 p.2.1 p.2.2 ++ load_particles_loop c g ps

/-! ## Run-quota monitor (lines 606-620)

Every step the diagnostics block checks
`step() > 0 && quota_check_interval > 0 && step() % quota_check_interval == 0`;
on a check step with `uptime() > quota_sec` it logs, calls `mp_barrier()`,
`halt_mp()` and `exit(0)`.  The effects are recorded as a list. -/

/-- Observable effects of the quota check of lines 606-620, in program
order: the `sim_log` call, `mp_barrier()`, `halt_mp()` and `exit(code)`. -/
inductive QuotaEffect
  | logMessage
  | mpBarrier
  | haltMp
  | exitCode (code : ℕ)
deriving DecidableEq

/-- Lines 606-620: the per-step quota check, as the list of effects it
performs at step `step` given the check interval, the quota in seconds and
the (globally agreed) elapsed-time function `uptime`. -/
def quota_check (qci : ℕ) (qsec : ℚ) (uptime : ℕ → ℚ) (step : ℕ) :
    List QuotaEffect :=
  if 0 < step ∧ 0 < qci ∧ step % qci = 0 then
    if qsec < uptime step then
      [QuotaEffect.logMessage, QuotaEffect.mpBarrier, QuotaEffect.haltMp,
       QuotaEffect.exitCode 0]
    else []
  else []

/-! ## Initialization parameters and validation (lines 70-113)

The experimental parameters are hard-coded constants; the initialization
block contains no conditional abort of any kind: apart from the
species-presence adjustments (lines 86, 89), the boundary-override blocks
and the `load_particles` test, every statement of `begin_initialization`
executes unconditionally through the particle-loading phase. -/

/-- Line 70: `t_e = 600`, electron temperature in eV. -/
def t_e : ℚ := 600

/-- Line 71: `t_i = 150`, ion temperature in eV. -/
def t_i : ℚ := 150

/-- Line 72: `n_e_over_n_crit = 0.05`. -/
def n_e_over_n_crit : ℚ := 5 / 100

/-- Whether `begin_initialization` aborts before the particle-loading phase,
as a function of the physical parameters (electron temperature, ion
temperature, density ratio).  The source (lines 54-580) contains no
validation test and no abort path — every execution reaches the
`load_particles` block — so this is constantly `false` whatever the
parameter values. -/
def initialization_aborts (_te _ti _ne_crit : ℚ) : Bool :=
  false

/-! ## Field-injection hook (lines 631-728)

The `begin_field_injection` block contains two candidate injection bodies
(3D at line 635 and 2D at line 682), both excluded by an `#if 0`
preprocessor guard, so the compiled hook body is empty. -/

/-- Values held in one grid cell of the field array; the injection bodies
would only touch `ey`. -/
structure FieldCell where
  ex : ℚ
  ey : ℚ
  ez : ℚ
  cbx : ℚ
  cby : ℚ
  cbz : ℚ

/-- Value of the `#if` preprocessor guard on the injection bodies
(lines 635 and 682): literally `0`, i.e. disabled. -/
def field_injection_enabled : Bool := false

/-- Lines 631-728: the per-step field-injection hook.  `inj` stands for the
preprocessor-excluded injection body (a function of the step and the field
state); since the guard is off, the hook returns the field state unchanged. -/
def begin_field_injection
    (inj : ℕ → (ℤ → ℤ → ℤ → FieldCell) → ℤ → ℤ → ℤ → FieldCell)
    (step : ℕ) (f : ℤ → ℤ → ℤ → FieldCell) : ℤ → ℤ → ℤ → FieldCell :=
  if field_injection_enabled then inj step f else f

end LpiDeck

open LpiDeck

/-- Helper: the first decoded coordinate of `RANK_TO_INDEX` is `rank % tx`. -/
theorem rank_to_index_fst (tx ty rank : ℕ) :
    (rank_to_index tx ty rank).1 = rank % tx := by
  have hdm1 : rank / tx * tx + rank % tx = rank := Nat.div_add_mod' rank tx
  simp only [rank_to_index]
  omega

/-- Helper: the second decoded coordinate of `RANK_TO_INDEX` is
`(rank / tx) % ty`. -/
theorem rank_to_index_snd_fst (tx ty rank : ℕ) :
    (rank_to_index tx ty rank).2.1 = (rank / tx) % ty := by
  have hdm2 : rank / tx / ty * ty + rank / tx % ty = rank / tx :=
    Nat.div_add_mod' (rank / tx) ty
  simp only [rank_to_index]
  omega

/-- Helper: the third decoded coordinate of `RANK_TO_INDEX` is
`rank / (tx * ty)`. -/
theorem rank_to_index_snd_snd (tx ty rank : ℕ) :
    (rank_to_index tx ty rank).2.2 = rank / (tx * ty) := by
  simp only [rank_to_index]
  exact Nat.div_div_eq_div_mul rank tx ty

/-- C1: after the time-step snapping of lines 181-183 (`nsteps_cycle =
trunc_granular(T/dt0,1)+1` with `T = 2*pi/omega` the laser period and
`dt0 = cfl_req*courant_length(Lx,Ly,Lz,nx,ny,nz)` the pre-snap step,
then `dt = T/nsteps_cycle`), the final `dt` satisfies `dt ≤ dt0` (it is
adjusted downward) and `nsteps_cycle * dt` equals the laser period exactly,
for every positive `T` and `dt0`, hence for every valid grid/frequency
configuration. -/
theorem dt_snapping_correct (T dt0 : ℚ) (hT : 0 < T) (hdt0 : 0 < dt0) :
    dt_snapped T dt0 ≤ dt0 ∧ nsteps_cycle T dt0 * dt_snapped T dt0 = T := by
  have hx : (0:ℚ) ≤ T / dt0 := le_of_lt (div_pos hT hdt0)
  have hfl : (0:ℤ) ≤ ⌊T / dt0⌋ := Int.floor_nonneg.mpr hx
  have hn : nsteps_cycle T dt0 = (⌊T / dt0⌋ : ℚ) + 1 := by
    simp [nsteps_cycle, trunc_granular, cTrunc, hx]
  have hnpos : 0 < nsteps_cycle T dt0 := by
    rw [hn]
    have : (0:ℚ) ≤ (⌊T / dt0⌋ : ℚ) := by exact_mod_cast hfl
    linarith
  constructor
  · -- dt = T / n ≤ dt0 because n = ⌊T/dt0⌋ + 1 > T/dt0
    have hlt : T / dt0 < nsteps_cycle T dt0 := by
      rw [hn]; exact Int.lt_floor_add_one _
    rw [dt_snapped, div_le_iff₀ hnpos]
    calc T = (T / dt0) * dt0 := by field_simp
    _ ≤ nsteps_cycle T dt0 * dt0 := by
          exact mul_le_mul_of_nonneg_right (le_of_lt hlt) (le_of_lt hdt0)
    _ = dt0 * nsteps_cycle T dt0 := by ring
  · rw [dt_snapped]
    field_simp

/-- Witness for C1 at `T = 10`, `dt0 = 3`: `nsteps_cycle = 4`,
`dt = 10/4 = 5/2 ≤ 3` and `4 * (5/2) = 10`. -/
theorem dt_snapping_correct_witness :
    (0:ℚ) < 10 ∧ (0:ℚ) < 3 ∧
      (dt_snapped 10 3 ≤ 3 ∧ nsteps_cycle 10 3 * dt_snapped 10 3 = 10) :=
  ⟨by norm_num, by norm_num, dt_snapping_correct 10 3 (by norm_num) (by norm_num)⟩

/-- C2: for every rank in `[0, tx*ty*tz)`, the `RANK_TO_INDEX` decoding of
lines 308-318 yields `ix = rank % tx`, `iy = (rank / tx) % ty`,
`iz = rank / (tx*ty)`, each coordinate lies in `[0, topology_axis)` for its
axis, re-encoding `ix + tx*(iy + ty*iz)` reproduces the original rank, and
conversely decoding the encoding of any coordinate in the box returns that
coordinate, so the decode is a bijection onto the coordinate box. -/
theorem rank_to_index_bijection (tx ty tz rank : ℕ)
    (htx : 0 < tx) (hty : 0 < ty) (htz : 0 < tz)
    (hrank : rank < tx * ty * tz) :
    (rank_to_index tx ty rank).1 = rank % tx ∧
    (rank_to_index tx ty rank).2.1 = (rank / tx) % ty ∧
    (rank_to_index tx ty rank).2.2 = rank / (tx * ty) ∧
    (rank_to_index tx ty rank).1 < tx ∧
    (rank_to_index tx ty rank).2.1 < ty ∧
    (rank_to_index tx ty rank).2.2 < tz ∧
    index_to_rank tx ty (rank_to_index tx ty rank).1
      (rank_to_index tx ty rank).2.1 (rank_to_index tx ty rank).2.2 = rank ∧
    (∀ jx jy jz, jx < tx → jy < ty → jz < tz →
      rank_to_index tx ty (index_to_rank tx ty jx jy jz) = (jx, jy, jz)) := by
  have hix := rank_to_index_fst tx ty rank
  have hiy := rank_to_index_snd_fst tx ty rank
  have hiz := rank_to_index_snd_snd tx ty rank
  refine ⟨hix, hiy, hiz, ?_, ?_, ?_, ?_, ?_⟩
  · rw [hix]; exact Nat.mod_lt _ htx
  · rw [hiy]; exact Nat.mod_lt _ hty
  · rw [hiz]
    exact Nat.div_lt_of_lt_mul hrank
  · rw [hix, hiy, hiz]
    simp only [index_to_rank]
    have h2 : (rank / tx) % ty + ty * (rank / (tx * ty)) = rank / tx := by
      rw [← Nat.div_div_eq_div_mul]
      exact Nat.mod_add_div (rank / tx) ty
    rw [h2]
    exact Nat.mod_add_div rank tx
  · intro jx jy jz hjx hjy hjz
    have hdivx : (jx + tx * (jy + ty * jz)) / tx = jy + ty * jz := by
      rw [Nat.add_mul_div_left _ _ htx, Nat.div_eq_of_lt hjx, Nat.zero_add]
    have hdivy : (jy + ty * jz) / ty = jz := by
      rw [Nat.add_mul_div_left _ _ hty, Nat.div_eq_of_lt hjy, Nat.zero_add]
    simp only [rank_to_index, index_to_rank, hdivx, hdivy, Prod.mk.injEq]
    have hc1 : tx * (jy + ty * jz) = (jy + ty * jz) * tx := Nat.mul_comm _ _
    have hc2 : ty * jz = jz * ty := Nat.mul_comm _ _
    refine ⟨by omega, by omega, trivial⟩

/-- Witness for C2 at `tx = 3`, `ty = 4`, `tz = 5`, `rank = 37`:
decode gives `(1, 0, 3)` and all the stated properties hold. -/
theorem rank_to_index_bijection_witness :
    (0 < 3 ∧ 0 < 4 ∧ 0 < 5 ∧ 37 < 3 * 4 * 5) ∧
    ((rank_to_index 3 4 37).1 = 37 % 3 ∧
     (rank_to_index 3 4 37).2.1 = (37 / 3) % 4 ∧
     (rank_to_index 3 4 37).2.2 = 37 / (3 * 4) ∧
     (rank_to_index 3 4 37).1 < 3 ∧
     (rank_to_index 3 4 37).2.1 < 4 ∧
     (rank_to_index 3 4 37).2.2 < 5 ∧
     index_to_rank 3 4 (rank_to_index 3 4 37).1
       (rank_to_index 3 4 37).2.1 (rank_to_index 3 4 37).2.2 = 37 ∧
     (∀ jx jy jz, jx < 3 → jy < 4 → jz < 5 →
       rank_to_index 3 4 (index_to_rank 3 4 jx jy jz) = (jx, jy, jz))) :=
  ⟨⟨by norm_num, by norm_num, by norm_num, by norm_num⟩,
   rank_to_index_bijection 3 4 5 37 (by norm_num) (by norm_num) (by norm_num)
     (by norm_num)⟩

/-- C3: for every positive `nppc, nx, ny, nz, Lx, Ly, Lz` and nonnegative ion
fractions with `f_H + f_He = 1`, the macro charges of lines 191-197 satisfy
exact local charge balance: `qi_H + qi_He = -q_e = |q_e|`, and when one
fraction is `1` the single present species alone balances:
`f_He = 1 → qi_He = -q_e` and `f_H = 1 → qi_H = -q_e`. -/
theorem charge_balance (nppc nx ny nz Lx Ly Lz f_H f_He : ℚ)
    (hnppc : 0 < nppc) (hnx : 0 < nx) (hny : 0 < ny) (hnz : 0 < nz)
    (hLx : 0 < Lx) (hLy : 0 < Ly) (hLz : 0 < Lz)
    (hfH : 0 ≤ f_H) (hfHe : 0 ≤ f_He) (hsum : f_H + f_He = 1) :
    qi_H nppc nx ny nz Lx Ly Lz f_H f_He
      + qi_He nppc nx ny nz Lx Ly Lz f_H f_He
      = -q_e nppc nx ny nz Lx Ly Lz ∧
    -q_e nppc nx ny nz Lx Ly Lz = |q_e nppc nx ny nz Lx Ly Lz| ∧
    (f_He = 1 → qi_He nppc nx ny nz Lx Ly Lz f_H f_He
      = -q_e nppc nx ny nz Lx Ly Lz) ∧
    (f_H = 1 → qi_H nppc nx ny nz Lx Ly Lz f_H f_He
      = -q_e nppc nx ny nz Lx Ly Lz) := by
  have hNepos : 0 < N_e nppc nx ny nz := by
    simp only [N_e]; positivity
  have hNe : N_e nppc nx ny nz ≠ 0 := ne_of_gt hNepos
  have hVpos : 0 < Np_e Lx Ly Lz := by
    simp only [Np_e]; positivity
  have hD : Z_H * f_H + Z_He * f_He ≠ 0 := by
    have : (0:ℚ) < Z_H * f_H + Z_He * f_He := by
      simp only [Z_H, Z_He]
      linarith
    exact ne_of_gt this
  have hqe : q_e nppc nx ny nz Lx Ly Lz < 0 := by
    simp only [q_e]
    apply div_neg_of_neg_of_pos
    · linarith
    · exact hNepos
  refine ⟨?_, ?_, ?_, ?_⟩
  · simp only [qi_H, qi_He, Np_i, q_e, N_i]
    field_simp
    ring
  · rw [abs_of_neg hqe]
  · intro h1
    have h0 : f_H = 0 := by linarith
    simp only [qi_He, Np_i, q_e, N_i, h0, h1, Z_H, Z_He]
    field_simp
  · intro h1
    have h0 : f_He = 0 := by linarith
    simp only [qi_H, Np_i, q_e, N_i, h0, h1, Z_H, Z_He]
    field_simp

/-- Witness for C3 at `nppc = 2`, unit grid and box, `f_H = f_He = 1/2`. -/
theorem charge_balance_witness :
    ((0:ℚ) < 2 ∧ (0:ℚ) < 1 ∧ (0:ℚ) ≤ (1:ℚ)/2 ∧ (1:ℚ)/2 + 1/2 = 1) ∧
    (qi_H 2 1 1 1 1 1 1 (1/2) (1/2) + qi_He 2 1 1 1 1 1 1 (1/2) (1/2)
        = -q_e 2 1 1 1 1 1 1 ∧
     -q_e 2 1 1 1 1 1 1 = |q_e 2 1 1 1 1 1 1| ∧
     ((1:ℚ)/2 = 1 → qi_He 2 1 1 1 1 1 1 (1/2) (1/2) = -q_e 2 1 1 1 1 1 1) ∧
     ((1:ℚ)/2 = 1 → qi_H 2 1 1 1 1 1 1 (1/2) (1/2) = -q_e 2 1 1 1 1 1 1)) :=
  ⟨⟨by norm_num, by norm_num, by norm_num, by norm_num⟩,
   charge_balance 2 1 1 1 1 1 1 (1/2) (1/2) (by norm_num) (by norm_num)
     (by norm_num) (by norm_num) (by norm_num) (by norm_num) (by norm_num)
     (by norm_num) (by norm_num) (by norm_num)⟩

/-- C7 counterexample: the claim asserts the cell spacing
`h_x = box_size_x/(delta*nx)` depends on the footprint factor `ssize_x`, but
doubling `ssize_x` from `1` to `2` (at `nx_sn = 96`, `snodes_x = 1`,
`delta = 1`) leaves `h_x` unchanged — the footprint factor cancels too. -/
theorem scaling_ssize_cancels_counterexample :
    hx_of 96 1 1 1 = hx_of 96 2 1 1 := by
  norm_num [hx_of, box_size_x, grid_nx]

/-- C7 amended: for all positive scale factors, the per-node box sizes and
grid resolutions are each multiplied first by the single-node
memory-footprint scale and then by the multi-node replication scale, and the
resulting cell spacing `h_i = box_size_i/(delta*n_i)` cancels both factors:
`h_i` is independent of `snodes_i` and of `ssize_i` alike. -/
theorem scaling_cell_size_invariant (n_sn ss sn delta : ℚ)
    (hn : n_sn ≠ 0) (hss : ss ≠ 0) (hsn : sn ≠ 0) (hdelta : delta ≠ 0) :
    hx_of n_sn ss sn delta = hx_of n_sn 1 1 delta ∧
    hy_of n_sn ss sn delta = hy_of n_sn 1 1 delta ∧
    hz_of n_sn ss sn delta = hz_of n_sn 1 1 delta := by
  refine ⟨?_, ?_, ?_⟩
  · simp only [hx_of, box_size_x, grid_nx]
    field_simp
    ring
  · simp only [hy_of, box_size_y, grid_nx]
    field_simp
    ring
  · simp only [hz_of, box_size_z, grid_nx]
    field_simp
    ring

/-- Witness for the amended C7 at `n_sn = 96`, `ss = 2`, `sn = 3`,
`delta = 5`. -/
theorem scaling_cell_size_invariant_witness :
    ((96:ℚ) ≠ 0 ∧ (2:ℚ) ≠ 0 ∧ (3:ℚ) ≠ 0 ∧ (5:ℚ) ≠ 0) ∧
    (hx_of 96 2 3 5 = hx_of 96 1 1 5 ∧
     hy_of 96 2 3 5 = hy_of 96 1 1 5 ∧
     hz_of 96 2 3 5 = hz_of 96 1 1 5) :=
  ⟨⟨by norm_num, by norm_num, by norm_num, by norm_num⟩,
   scaling_cell_size_invariant 96 2 3 5 (by norm_num) (by norm_num)
     (by norm_num) (by norm_num)⟩

/-- C4: with the boundary override enabled (`use_maxwellian_reflux_bc == 1`),
a trial whose drawn position satisfies the `iv_region` predicate injects zero
particles of any species; otherwise the trial injects exactly one electron,
plus one macro-ion per present ion species when mobile ions are enabled; in
particular with `iv_thick = 2` and `hx = 1/10`, any `x < 1/5` or
`x > Lx - 1/5` injects nothing. -/
theorem iv_region_exclusion (c : DeckConfig) (g : BoxGeom) (x y z : ℚ)
    (hflag : c.use_maxwellian_reflux_bc = 1) :
    (iv_region g x y z = true → trialInject c g x y z = []) ∧
    (iv_region g x y z = false →
      (trialInject c g x y z).count PSpecies.electron = 1 ∧
      (trialInject c g x y z).count PSpecies.ionH
        = (if c.mobile_ions ∧ c.H_present then 1 else 0) ∧
      (trialInject c g x y z).count PSpecies.ionHe
        = (if c.mobile_ions ∧ c.He_present then 1 else 0)) ∧
    (g.iv_thick = 2 → g.hx = 1/10 → (x < 1/5 ∨ x > g.Lx - 1/5) →
      trialInject c g x y z = []) := by
  refine ⟨?_, ?_, ?_⟩
  · intro hin
    simp [trialInject, hflag, hin]
  · intro hout
    cases hm : c.mobile_ions <;> cases hH : c.H_present <;>
      cases hHe : c.He_present <;>
      simp [trialInject, hflag, hout, hm, hH, hHe, List.count_cons,
        List.count_append]
  · intro hthick hhx hx5
    have hin : iv_region g x y z = true := by
      simp only [iv_region, Bool.or_eq_true, decide_eq_true_eq]
      rcases hx5 with h | h
      · have hA : x < g.hx * g.iv_thick := by rw [hthick, hhx]; linarith
        simp [hA]
      · have hB : x > g.Lx - g.hx * g.iv_thick := by rw [hthick, hhx]; linarith
        simp [hB]
    simp [trialInject, hflag, hin]

/-- Witness for C4 with both ion species present, mobile ions on, geometry
`hx = hy = hz = 1/10`, `Lx = Ly = Lz = 4`, `iv_thick = 2`, at the interior
point `(2, 0, 0)` (not excluded) — and the exclusion conjuncts applied
where their guards hold. -/
theorem iv_region_exclusion_witness :
    (({ use_maxwellian_reflux_bc := 1, mobile_ions := true,
        H_present := true, He_present := true } : DeckConfig).use_maxwellian_reflux_bc = 1) ∧
    (iv_region ⟨1/10, 1/10, 1/10, 4, 4, 4, 2⟩ 2 0 0 = false ∧
      (trialInject ⟨1, true, true, true⟩ ⟨1/10, 1/10, 1/10, 4, 4, 4, 2⟩ 2 0 0).count
          PSpecies.electron = 1 ∧
      (trialInject ⟨1, true, true, true⟩ ⟨1/10, 1/10, 1/10, 4, 4, 4, 2⟩ 2 0 0).count
          PSpecies.ionH = 1 ∧
      (trialInject ⟨1, true, true, true⟩ ⟨1/10, 1/10, 1/10, 4, 4, 4, 2⟩ 2 0 0).count
          PSpecies.ionHe = 1) ∧
    (trialInject ⟨1, true, true, true⟩ ⟨1/10, 1/10, 1/10, 4, 4, 4, 2⟩ (1/10) 0 0 = []) := by
  have h := iv_region_exclusion ⟨1, true, true, true⟩
    ⟨1/10, 1/10, 1/10, 4, 4, 4, 2⟩ 2 0 0 rfl
  have h2 := iv_region_exclusion ⟨1, true, true, true⟩
    ⟨1/10, 1/10, 1/10, 4, 4, 4, 2⟩ (1/10) 0 0 rfl
  have hout : iv_region ⟨1/10, 1/10, 1/10, 4, 4, 4, 2⟩ (2:ℚ) 0 0 = false := by
    norm_num [iv_region]
  refine ⟨rfl, ⟨hout, ?_⟩, ?_⟩
  · have := h.2.1 hout
    simpa using this
  · exact h2.2.2 rfl rfl (Or.inl (by norm_num))

/-- C10: when the maxwellian-reflux flag is disabled
(`use_maxwellian_reflux_bc != 1`) the loader performs no exclusion test:
every trial injects exactly one electron (plus the matching ions when mobile
ions are enabled), even at positions inside the `iv_region` vacuum layer,
and over the whole `repeat` loop the number of injected electrons equals
the number of trials. -/
theorem loader_without_reflux_flag (c : DeckConfig) (g : BoxGeom)
    (x y z : ℚ) (draws : List (ℚ × ℚ × ℚ))
    (hflag : c.use_maxwellian_reflux_bc ≠ 1) :
    ((trialInject c g x y z).count PSpecies.electron = 1 ∧
     (trialInject c g x y z).count PSpecies.ionH
       = (if c.mobile_ions ∧ c.H_present then 1 else 0) ∧
     (trialInject c g x y z).count PSpecies.ionHe
       = (if c.mobile_ions ∧ c.He_present then 1 else 0)) ∧
    (load_particles_loop c g draws).count PSpecies.electron = draws.length := by
  have htrial : ∀ a b d : ℚ,
      (trialInject c g a b d).count PSpecies.electron = 1 ∧
      (trialInject c g a b d).count PSpecies.ionH
        = (if c.mobile_ions ∧ c.H_present then 1 else 0) ∧
      (trialInject c g a b d).count PSpecies.ionHe
        = (if c.mobile_ions ∧ c.He_present then 1 else 0) := by
    intro a b d
    cases hm : c.mobile_ions <;> cases hH : c.H_present <;>
      cases hHe : c.He_present <;>
      simp [trialInject, hflag, hm, hH, hHe, List.count_cons,
        List.count_append]
  refine ⟨htrial x y z, ?_⟩
  induction draws with
  | nil => simp [load_particles_loop]
  | cons p ps ih =>
      have hp := (htrial p.1 p.2.1 p.2.2).1
      simp only [load_particles_loop, List.count_append, List.length_cons]
      rw [hp, ih]
      exact Nat.add_comm 1 ps.length

/-- Witness for C10 with the flag at `0`, mobile ions on, both species
present, a position inside the vacuum layer (`x = 0`), and a two-trial draw
list. -/
theorem loader_without_reflux_flag_witness :
    (((⟨0, true, true, true⟩ : DeckConfig).use_maxwellian_reflux_bc ≠ 1) ∧
     ((trialInject ⟨0, true, true, true⟩ ⟨1/10, 1/10, 1/10, 4, 4, 4, 2⟩ 0 0 0).count
         PSpecies.electron = 1 ∧
      (trialInject ⟨0, true, true, true⟩ ⟨1/10, 1/10, 1/10, 4, 4, 4, 2⟩ 0 0 0).count
         PSpecies.ionH
        = (if (true : Bool) ∧ (true : Bool) then 1 else 0) ∧
      (trialInject ⟨0, true, true, true⟩ ⟨1/10, 1/10, 1/10, 4, 4, 4, 2⟩ 0 0 0).count
         PSpecies.ionHe
        = (if (true : Bool) ∧ (true : Bool) then 1 else 0)) ∧
     (load_particles_loop ⟨0, true, true, true⟩ ⟨1/10, 1/10, 1/10, 4, 4, 4, 2⟩
        [(0, 0, 0), (2, 0, 0)]).count PSpecies.electron
       = ([(0, 0, 0), (2, 0, 0)] : List (ℚ × ℚ × ℚ)).length) :=
  ⟨by decide,
   (loader_without_reflux_flag ⟨0, true, true, true⟩
      ⟨1/10, 1/10, 1/10, 4, 4, 4, 2⟩ 0 0 0 [(0, 0, 0), (2, 0, 0)]
      (by decide)).1,
   (loader_without_reflux_flag ⟨0, true, true, true⟩
      ⟨1/10, 1/10, 1/10, 4, 4, 4, 2⟩ 0 0 0 [(0, 0, 0), (2, 0, 0)]
      (by decide)).2⟩

/-- C5: the per-step quota check of lines 606-620 is a no-op unless
`step > 0`, `quota_check_interval > 0` and `step % quota_check_interval == 0`;
on a check step where the globally-agreed elapsed time exceeds `quota_sec` it
logs, executes the collective barrier, shuts down and exits with status `0`,
in that order; and for `check_interval = 20` and a 100-second limit, any
monotone elapsed-time sequence that crosses 100 seconds only between steps
21 and 39 halts exactly at step 40 and never earlier. -/
theorem quota_monitor (qci : ℕ) (qsec : ℚ) (u : ℕ → ℚ) (step : ℕ) :
    (¬(0 < step ∧ 0 < qci ∧ step % qci = 0) →
      quota_check qci qsec u step = []) ∧
    ((0 < step ∧ 0 < qci ∧ step % qci = 0) → qsec < u step →
      quota_check qci qsec u step
        = [QuotaEffect.logMessage, QuotaEffect.mpBarrier, QuotaEffect.haltMp,
           QuotaEffect.exitCode 0]) ∧
    (Monotone u → u 21 ≤ 100 → 100 < u 39 →
      quota_check 20 100 u 40
        = [QuotaEffect.logMessage, QuotaEffect.mpBarrier, QuotaEffect.haltMp,
           QuotaEffect.exitCode 0] ∧
      ∀ s, s < 40 → quota_check 20 100 u s = []) := by
  refine ⟨?_, ?_, ?_⟩
  · intro hno
    simp [quota_check, hno]
  · intro hcheck hover
    simp [quota_check, hcheck, hover]
  · intro hmono h21 h39
    have h40 : (100:ℚ) < u 40 := lt_of_lt_of_le h39 (hmono (by norm_num))
    constructor
    · have hc : 0 < 40 ∧ 0 < 20 ∧ 40 % 20 = 0 := by norm_num
      simp [quota_check, hc, h40]
    · intro s hs
      by_cases hc : 0 < s ∧ 0 < 20 ∧ s % 20 = 0
      · have hs20 : s = 20 := by omega
        subst hs20
        have hle : u 20 ≤ 100 := le_trans (hmono (by norm_num)) h21
        simp [quota_check, not_lt.mpr hle]
      · simp only [quota_check]
        rw [if_neg hc]

/-- Witness for C5 with the elapsed-time sequence `u s = 3*s`, which is
monotone, is at 63 seconds at step 21 and at 117 seconds at step 39: the
halt effects appear exactly at step 40 and at no earlier step. -/
theorem quota_monitor_witness :
    quota_check 20 100 (fun s => (3:ℚ) * s) 40
      = [QuotaEffect.logMessage, QuotaEffect.mpBarrier, QuotaEffect.haltMp,
         QuotaEffect.exitCode 0] ∧
    ∀ s, s < 40 → quota_check 20 100 (fun s => (3:ℚ) * s) s = [] :=
  (quota_monitor 20 100 (fun s => (3:ℚ) * s) 40).2.2
    (by
      intro a b hab
      have : (a:ℚ) ≤ (b:ℚ) := by exact_mod_cast hab
      simp only
      linarith)
    (by norm_num)
    (by norm_num)

/-- C6: with the boundary override mode enabled
(`use_maxwellian_reflux_bc == 1`), a rank's face is overridden to absorbing
if and only if its decoded coordinate lies on the corresponding global edge:
left iff `ix = 0` (equivalently `rank % tx = 0`), right iff `ix = tx - 1`,
front iff `iy = 0`, back iff `iy = ty - 1`, top iff `iz = 0`, bottom iff
`iz = tz - 1`; no other face of any rank is overridden. -/
theorem boundary_face_overrides (tx ty tz rank : ℕ)
    (htx : 0 < tx) (hty : 0 < ty) (htz : 0 < tz)
    (hrank : rank < tx * ty * tz) :
    ((domain_face_overrides 1 tx ty tz rank).left = true
      ↔ (rank_to_index tx ty rank).1 = 0) ∧
    ((domain_face_overrides 1 tx ty tz rank).right = true
      ↔ (rank_to_index tx ty rank).1 = tx - 1) ∧
    ((domain_face_overrides 1 tx ty tz rank).front = true
      ↔ (rank_to_index tx ty rank).2.1 = 0) ∧
    ((domain_face_overrides 1 tx ty tz rank).back = true
      ↔ (rank_to_index tx ty rank).2.1 = ty - 1) ∧
    ((domain_face_overrides 1 tx ty tz rank).top = true
      ↔ (rank_to_index tx ty rank).2.2 = 0) ∧
    ((domain_face_overrides 1 tx ty tz rank).bottom = true
      ↔ (rank_to_index tx ty rank).2.2 = tz - 1) ∧
    ((domain_face_overrides 1 tx ty tz rank).left = true
      ↔ rank % tx = 0) ∧
    ((domain_face_overrides 1 tx ty tz rank).right = true
      ↔ rank % tx = tx - 1) ∧
    ((domain_face_overrides 1 tx ty tz rank).front = true
      ↔ (rank / tx) % ty = 0) ∧
    ((domain_face_overrides 1 tx ty tz rank).back = true
      ↔ (rank / tx) % ty = ty - 1) ∧
    ((domain_face_overrides 1 tx ty tz rank).top = true
      ↔ rank / (tx * ty) = 0) ∧
    ((domain_face_overrides 1 tx ty tz rank).bottom = true
      ↔ rank / (tx * ty) = tz - 1) := by
  have hix := rank_to_index_fst tx ty rank
  have hiy := rank_to_index_snd_fst tx ty rank
  have hiz := rank_to_index_snd_snd tx ty rank
  simp [domain_face_overrides, hix, hiy, hiz]

/-- Witness for C6 at `tx = 3`, `ty = 4`, `tz = 5`, `rank = 37`: the decode
gives `(1, 0, 3)`, so only the front face is overridden. -/
theorem boundary_face_overrides_witness :
    (0 < 3 ∧ 0 < 4 ∧ 0 < 5 ∧ 37 < 3 * 4 * 5) ∧
    (((domain_face_overrides 1 3 4 5 37).left = true
       ↔ (rank_to_index 3 4 37).1 = 0) ∧
     ((domain_face_overrides 1 3 4 5 37).right = true
       ↔ (rank_to_index 3 4 37).1 = 3 - 1) ∧
     ((domain_face_overrides 1 3 4 5 37).front = true
       ↔ (rank_to_index 3 4 37).2.1 = 0) ∧
     ((domain_face_overrides 1 3 4 5 37).back = true
       ↔ (rank_to_index 3 4 37).2.1 = 4 - 1) ∧
     ((domain_face_overrides 1 3 4 5 37).top = true
       ↔ (rank_to_index 3 4 37).2.2 = 0) ∧
     ((domain_face_overrides 1 3 4 5 37).bottom = true
       ↔ (rank_to_index 3 4 37).2.2 = 5 - 1) ∧
     ((domain_face_overrides 1 3 4 5 37).left = true ↔ 37 % 3 = 0) ∧
     ((domain_face_overrides 1 3 4 5 37).right = true ↔ 37 % 3 = 3 - 1) ∧
     ((domain_face_overrides 1 3 4 5 37).front = true ↔ (37 / 3) % 4 = 0) ∧
     ((domain_face_overrides 1 3 4 5 37).back = true ↔ (37 / 3) % 4 = 4 - 1) ∧
     ((domain_face_overrides 1 3 4 5 37).top = true ↔ 37 / (3 * 4) = 0) ∧
     ((domain_face_overrides 1 3 4 5 37).bottom = true
       ↔ 37 / (3 * 4) = 5 - 1)) :=
  ⟨⟨by norm_num, by norm_num, by norm_num, by norm_num⟩,
   boundary_face_overrides 3 4 5 37 (by norm_num) (by norm_num) (by norm_num)
     (by norm_num)⟩

/-- C8 counterexample: the claim says initialization with
`n_e_over_n_crit ≤ 0` aborts with a configuration error before any particle
is loaded, but `begin_initialization` contains no validation or abort path:
at `n_e_over_n_crit = -1` (temperatures at their deck values) the
initialization still proceeds to the particle-loading phase. -/
theorem init_validation_counterexample :
    (-1 : ℚ) ≤ 0 ∧ initialization_aborts 600 150 (-1) = false :=
  ⟨by norm_num, rfl⟩

/-- C8 amended: `begin_initialization` performs no validation of
`n_e_over_n_crit` or the temperatures and never aborts before the
particle-loading phase, whatever their values; the deck instead hard-codes
`t_e = 600`, `t_i = 150` and `n_e_over_n_crit = 0.05`, which satisfy the
validity conditions, so the failing configuration cannot arise. -/
theorem init_never_aborts (te ti nc : ℚ) :
    initialization_aborts te ti nc = false ∧
    0 < n_e_over_n_crit ∧ 0 ≤ t_e ∧ 0 ≤ t_i :=
  ⟨rfl, by norm_num [n_e_over_n_crit], by norm_num [t_e], by norm_num [t_i]⟩

/-- C9: the field-injection hook is disabled by the preprocessor feature
flag (`#if 0`) and is a no-op: for every step, every (excluded) injection
body and every field state, `begin_field_injection` returns the field state
unchanged — in particular every boundary `ey` cell keeps its value. -/
theorem field_injection_noop
    (inj : ℕ → (ℤ → ℤ → ℤ → FieldCell) → ℤ → ℤ → ℤ → FieldCell)
    (step : ℕ) (f : ℤ → ℤ → ℤ → FieldCell) :
    begin_field_injection inj step f = f ∧
    ∀ ix iy iz, (begin_field_injection inj step f ix iy iz).ey
      = (f ix iy iz).ey := by
  constructor
  · simp [begin_field_injection, field_injection_enabled]
  · intro ix iy iz
    simp [begin_field_injection, field_injection_enabled]
